import Mathlib

/-!
Verification of the docx-to-markdown normalization and rendering engine
(`src/lib.rs` of the docx-parser crate).

The Rust source is shallowly embedded as follows:
* Rust structs become Lean structures with the same field names;
  `Option<T>` becomes `Option`, `isize` becomes `Int`, `usize` counters
  become `Nat`, `String` becomes `String`.
* `HashMap<K, V>` values are embedded as association lists `List (K × V)`
  with `List.lookup`; only keyed reads and writes occur during rendering
  (iteration over a map happens only for image export, which is file I/O
  and outside the rendered string), so the association-list embedding is
  faithful for every claim below.
* Methods that mutate `&mut self` are embedded as functions returning the
  updated value.
* The indexing expression `doc.numberings[&id]` panics in Rust when the
  key is absent; paragraph rendering is therefore embedded with result
  type `Option`, where `none` models that panic.
* `MarkdownDocument::to_markdown`'s `export_images` flag only triggers
  file writes and never changes the returned string, so it is ignored by
  the embedding.
-/

/-- Character-level formatting of a run (`struct BlockStyle`, src/lib.rs 32-46). -/
structure BlockStyle where
  bold : Bool
  italics : Bool
  underline : Bool
  strike : Bool
  size : Option Int
deriving DecidableEq

/-- `BlockStyle::new` (src/lib.rs 49-57): all flags off, no size. -/
def BlockStyle.new : BlockStyle :=
  { bold := false, italics := false, underline := false, strike := false, size := none }

/-- `BlockStyle::combine_with` (src/lib.rs 59-67).  `self` is mutated in Rust;
here the updated value is returned.  The boolean flags of `other`
unconditionally overwrite those of `self`; `size` is overwritten only when
`other` carries one. -/
def BlockStyle.combine_with (self other : BlockStyle) : BlockStyle :=
  { bold := other.bold
    italics := other.italics
    underline := other.underline
    strike := other.strike
    size := match other.size with
      | some size => some size
      | none => self.size }

/-- `struct MarkdownNumbering` (src/lib.rs 70-81). -/
structure MarkdownNumbering where
  id : Option Int
  indent_level : Option Int
  format : Option String
  level_text : Option String
deriving DecidableEq

/-- `struct ParagraphStyle` (src/lib.rs 83-96). -/
structure ParagraphStyle where
  style_id : Option String
  outline_lvl : Option Int
  numbering : Option MarkdownNumbering
  page_break_before : Option Bool
  style : Option BlockStyle
deriving DecidableEq

/-- `ParagraphStyle::new` (src/lib.rs 99-107); the derived `Default` used at
src/lib.rs 274 produces the same all-`None` value. -/
def ParagraphStyle.new : ParagraphStyle :=
  { style_id := none, outline_lvl := none, numbering := none,
    page_break_before := none, style := none }

/-- `ParagraphStyle::combine_with` (src/lib.rs 109-123).  The four scalar
fields keep the local (`self`) value when present and inherit from `other`
otherwise; the nested run-default `style` is itself merged with
`BlockStyle::combine_with` when both sides carry one. -/
def ParagraphStyle.combine_with (self other : ParagraphStyle) : ParagraphStyle :=
  { style_id := match self.style_id with
      | some v => some v
      | none => other.style_id
    outline_lvl := match self.outline_lvl with
      | some v => some v
      | none => other.outline_lvl
    page_break_before := match self.page_break_before with
      | some v => some v
      | none => other.page_break_before
    numbering := match self.numbering with
      | some v => some v
      | none => other.numbering
    style := match self.style, other.style with
      | some style, some other_style => some (style.combine_with other_style)
      | some style, none => some style
      | none, other_style => other_style }

/-- `enum TextType` (src/lib.rs 176-191). -/
inductive TextType where
  | Text
  | Image
  | Link
  | Code
  | Quote
  | List
  | Table
  | Header
  | HorizontalRule
  | BlockQuote
  | CodeBlock
  | HeaderBlock
  | BookmarkLink
deriving DecidableEq

/-- `struct TextBlock` (src/lib.rs 193-200). -/
structure TextBlock where
  text_type : TextType
  style : Option BlockStyle
  text : String
deriving DecidableEq

/-- `TextBlock::new` (src/lib.rs 202-209). -/
def TextBlock.new (text : String) (style : Option BlockStyle) (text_type : TextType) : TextBlock :=
  { text_type := text_type, style := style, text := text }

/-- `TextBlock::to_markdown` (src/lib.rs 211-244): combine the run's own
style with the paragraph's run-default style, then wrap the text in
bold / italics / underline / strike markers, in that order. -/
def TextBlock.to_markdown (self : TextBlock) (paragraph_style : ParagraphStyle) : String :=
  let style := match self.style with
    | some s => s
    | none => BlockStyle.new
  let style := match paragraph_style.style with
    | some block_style => style.combine_with block_style
    | none => style
  let markdown := self.text
  let markdown := if style.bold then "**" ++ markdown ++ "**" else markdown
  let markdown := if style.italics then "*" ++ markdown ++ "*" else markdown
  let markdown := if style.underline then "__" ++ markdown ++ "__" else markdown
  let markdown := if style.strike then "~~" ++ markdown ++ "~~" else markdown
  markdown

/-- The outline-level match of `MarkdownParagraph::to_markdown`
(src/lib.rs 285-295), written as the equivalent chain of equality tests.
The catch-all arm of the Rust `match` (every level other than 0-4,
including negative ones, since the field is `isize`) yields six `#`s. -/
def headingLevel (outline_lvl : Int) : String :=
  if outline_lvl = 0 then "# "
  else if outline_lvl = 1 then "## "
  else if outline_lvl = 2 then "### "
  else if outline_lvl = 3 then "#### "
  else if outline_lvl = 4 then "##### "
  else "###### "

/-- The numbering formats distinguished by the symbol `match` at
src/lib.rs 311-321.  `docx_rust::formatting::NumberFormat` has further
variants (ordinal, cardinal text, ...), but every one of them takes the
same catch-all arm as `Decimal` does, and a failed parse is mapped to
`Decimal` by `unwrap_or` (src/lib.rs 307), so they are all collapsed into
`Decimal` here; the rendered output is unchanged by this collapse. -/
inductive NumberFormat where
  | UpperRoman
  | LowerRoman
  | UpperLetter
  | LowerLetter
  | Bullet
  | Decimal
deriving DecidableEq

/-- `NumberFormat::from_str(entry).unwrap_or(NumberFormat::Decimal)`
(src/lib.rs 307).  The XML attribute spellings recognized for the five
formats distinguished by the renderer are the camelCase strings below;
every other string (another recognized format, or a parse failure) ends
up rendered exactly like `Decimal`. -/
def NumberFormat.fromStr (s : String) : NumberFormat :=
  if s = "upperRoman" then NumberFormat.UpperRoman
  else if s = "lowerRoman" then NumberFormat.LowerRoman
  else if s = "upperLetter" then NumberFormat.UpperLetter
  else if s = "lowerLetter" then NumberFormat.LowerLetter
  else if s = "bullet" then NumberFormat.Bullet
  else if s = "decimal" then NumberFormat.Decimal
  else NumberFormat.Decimal

/-- The numbering-symbol `match` of `MarkdownParagraph::to_markdown`
(src/lib.rs 311-321).  The Roman/letter arms compute
`(*count as u8 + b'I') as char` etc.; `as u8` truncates modulo 256 and the
`u8` addition wraps in release builds, embedded here as the explicit
`% 256` arithmetic.  The `Bullet` arm re-reads the definition's
`level_text` and emits a lone space when it is present and blank; the
catch-all arm emits `"{count+1}."`. -/
def numberingSymbol (format : NumberFormat) (level_text : Option String) (count : Nat) : String :=
  match format with
  | NumberFormat.UpperRoman => String.mk [Char.ofNat ((count % 256 + 73) % 256)] ++ "."
  | NumberFormat.LowerRoman => String.mk [Char.ofNat ((count % 256 + 105) % 256)] ++ "."
  | NumberFormat.UpperLetter => String.mk [Char.ofNat ((count % 256 + 65) % 256)] ++ "."
  | NumberFormat.LowerLetter => String.mk [Char.ofNat ((count % 256 + 97) % 256)] ++ "."
  | NumberFormat.Bullet =>
    match level_text with
    | some level_text => if level_text.trim = "" then " " else "-"
    | none => "-"
  | NumberFormat.Decimal => toString (count + 1) ++ "."

/-- The per-list counters (`HashMap<isize, usize>`, src/lib.rs 633),
embedded as an association list. -/
abbrev Counters := List (Int × Nat)

/-- Reading `numberings.entry(id).or_insert(0)` (src/lib.rs 310): the
current counter of `id`, or 0 when none is stored yet. -/
def getCount (counters : Counters) (id : Int) : Nat :=
  match List.lookup id counters with
  | some c => c
  | none => 0

/-- Writing the incremented counter back (`*count += 1`, src/lib.rs 322):
replace the binding of `id`, or append one. -/
def setCount : Counters → Int → Nat → Counters
  | [], id, c => [(id, c)]
  | (k, v) :: rest, id, c =>
    if k = id then (id, c) :: rest else (k, v) :: setCount rest id c

/-- One normalized paragraph (`struct MarkdownParagraph`, src/lib.rs 247-252). -/
structure MarkdownParagraph where
  style : Option ParagraphStyle
  blocks : List TextBlock

/-- One table row (`struct MarkdownTableRow`, src/lib.rs 731-736); a cell
(`MarkdownTableCell`, src/lib.rs 738) is a list of normalized paragraphs. -/
structure MarkdownTableRow where
  is_header : Bool
  cells : List (List MarkdownParagraph)

/-- `enum MarkdownContent` (src/lib.rs 722-727). -/
inductive MarkdownContent where
  | Paragraph (p : MarkdownParagraph)
  | Table (t : List MarkdownTableRow)

/-- `struct MarkdownDocument` (src/lib.rs 462-472).  The two `HashMap`
fields are association lists here; `images` maps relationship ids to byte
sequences and plays no part in the rendered string. -/
structure MarkdownDocument where
  title : Option String
  content : List MarkdownContent
  styles : List (String × ParagraphStyle)
  numberings : List (Int × MarkdownNumbering)
  images : List (String × List Nat)

/-- The style-resolution opening of `MarkdownParagraph::to_markdown`
(src/lib.rs 271-282): start from the paragraph's local style (or the
default), and when it names a style id that resolves in the document's
named-styles map, merge with that named style. -/
def MarkdownParagraph.effective_style (self : MarkdownParagraph)
    (styles : List (String × ParagraphStyle)) : ParagraphStyle :=
  let style := match self.style with
    | some s => s
    | none => ParagraphStyle.new
  match style.style_id with
  | some style_id =>
    match List.lookup style_id styles with
    | some doc_style => style.combine_with doc_style
    | none => style
  | none => style

/-- `MarkdownParagraph::to_markdown` (src/lib.rs 263-331).  Returns the
rendered string together with the updated per-list counters, or `none`
where the Rust code panics: the expression `doc.numberings[&id]`
(src/lib.rs 306, 316) indexes the numbering-definition map and aborts
when `id` has no entry. -/
def MarkdownParagraph.to_markdown (self : MarkdownParagraph)
    (styles : List (String × ParagraphStyle)) (numberings : Counters)
    (doc : MarkdownDocument) : Option (String × Counters) :=
  let style := self.effective_style styles
  let markdown := match style.outline_lvl with
    | some outline_lvl => headingLevel outline_lvl
    | none => ""
  match style.numbering with
  | some numbering =>
    let markdown := markdown ++
      (match numbering.indent_level with
       | some level =>
         if 0 < level then String.join (List.replicate level.toNat "    ") else ""
       | none => "")
    match numbering.id with
    | some id =>
      match List.lookup id doc.numberings with
      | none => none
      | some ndef =>
        let format := match ndef.format with
          | some entry => NumberFormat.fromStr entry
          | none => NumberFormat.Decimal
        let count := getCount numberings id
        let symbol := numberingSymbol format ndef.level_text count
        let numberings := setCount numberings id (count + 1)
        let markdown := markdown ++ symbol ++ " "
        some (self.blocks.foldl (fun md block => md ++ block.to_markdown style) markdown,
              numberings)
    | none =>
      some (self.blocks.foldl (fun md block => md ++ block.to_markdown style) markdown,
            numberings)
  | none =>
    some (self.blocks.foldl (fun md block => md ++ block.to_markdown style) markdown,
          numberings)

/-- Modelled from the spec: `table_row_to_markdown` lives in
`src/utils.rs`, which is not part of the provided sources.  Per spec §4.4
(points 4 and 5) and the §8 end-to-end example, each row renders as a
pipe-delimited line, every cell right-padded with spaces to its column's
computed width, and rows are newline-joined by direct concatenation of
the per-row strings, so each row string ends in a newline. -/
def table_row_to_markdown (widths : List Nat) (cells : List String) : String :=
  "|" ++ String.join ((List.range widths.length).map (fun j =>
    let w := (widths.get? j).getD 0
    let c := (cells.get? j).getD ""
    " " ++ (c ++ String.mk (List.replicate (w - c.length) ' ')) ++ " |")) ++ "\n"

/-- Modelled from the spec: `max_lengths_per_column` lives in
`src/utils.rs`, which is not part of the provided sources.  Per spec §4.4
(point 2): for every column index present in any row, the maximum
rendered cell length across all rows, with a floor given by the second
argument (the call site passes 3). -/
def max_lengths_per_column (rows : List (Bool × List String)) (floor : Nat) : List Nat :=
  let ncols := rows.foldl (fun m r => max m r.2.length) 0
  (List.range ncols).map (fun j =>
    rows.foldl (fun m r =>
      match r.2.get? j with
      | some c => max m c.length
      | none => m) floor)

/-- The divider row (src/lib.rs 672-675): a cell of `width` dashes per
column, rendered like any other row. -/
def dividerRow (column_lengths : List Nat) : String :=
  table_row_to_markdown column_lengths
    (column_lengths.map (fun i => String.mk (List.replicate i '-')))

/-- The synthesized blank header row (src/lib.rs 685-688): one empty
string per column, padded to the column width by `table_row_to_markdown`. -/
def blankHeaderRow (column_lengths : List Nat) : String :=
  table_row_to_markdown column_lengths (column_lengths.map (fun _ => ""))

/-- The row-emitting fold over `table_with_simple_cells.iter().enumerate()`
(src/lib.rs 676-700), with the enumerate index passed explicitly: `i` is
the current index and `n` the total row count.  At index 0 a marked
header row is emitted followed by the divider, otherwise a blank header
row, the divider and the first data row; later rows are appended as they
are.  The final `if i == table_with_simple_cells.len()` (src/lib.rs 695)
is kept verbatim. -/
def tableFoldAux (column_lengths : List Nat) (divider : String) (n : Nat) :
    Nat → String → List (Bool × List String) → String
  | _, acc, [] => acc
  | i, acc, row :: rest =>
    let markdown_row := table_row_to_markdown column_lengths row.2
    let acc := if i = 0 then
        (if row.1 then acc ++ markdown_row ++ divider
         else acc ++ blankHeaderRow column_lengths ++ divider ++ markdown_row)
      else acc ++ markdown_row
    let acc := if i = n then acc ++ "\n" else acc
    tableFoldAux column_lengths divider n (i + 1) acc rest

/-- The table-to-string step of `MarkdownDocument::to_markdown`
(src/lib.rs 671-700): compute column widths (floor 3), the divider, and
run the row fold from index 0 with an empty accumulator. -/
def tableFold (table_with_simple_cells : List (Bool × List String)) : String :=
  let column_lengths := max_lengths_per_column table_with_simple_cells 3
  tableFoldAux column_lengths (dividerRow column_lengths)
    table_with_simple_cells.length 0 "" table_with_simple_cells

/-- Flattening one cell's paragraphs into a single string
(src/lib.rs 648-665): paragraphs are joined with `<br/>`; the last
paragraph of the cell gets no trailing marker (`i + 1 < cell.len()`).
`none` propagates a rendering panic. -/
def renderCellContent (doc : MarkdownDocument) :
    List MarkdownParagraph → Counters → Option (String × Counters)
  | [], cs => some ("", cs)
  | [p], cs => p.to_markdown doc.styles cs doc
  | p :: q :: rest, cs =>
    match p.to_markdown doc.styles cs doc with
    | none => none
    | some (s, cs') =>
      match renderCellContent doc (q :: rest) cs' with
      | none => none
      | some (s2, cs2) => some (s ++ "<br/>" ++ s2, cs2)

/-- Flattening every cell of a row (src/lib.rs 645-667). -/
def renderRowCells (doc : MarkdownDocument) :
    List (List MarkdownParagraph) → Counters → Option (List String × Counters)
  | [], cs => some ([], cs)
  | cell :: rest, cs =>
    match renderCellContent doc cell cs with
    | none => none
    | some (s, cs') =>
      match renderRowCells doc rest cs' with
      | none => none
      | some (ss, cs2) => some (s :: ss, cs2)

/-- Building `table_with_simple_cells` (src/lib.rs 642-670): each row
keeps its header flag and flattens its cells to strings. -/
def renderTableRows (doc : MarkdownDocument) :
    List MarkdownTableRow → Counters → Option (List (Bool × List String) × Counters)
  | [], cs => some ([], cs)
  | row :: rest, cs =>
    match renderRowCells doc row.cells cs with
    | none => none
    | some (ss, cs') =>
      match renderTableRows doc rest cs' with
      | none => none
      | some (tws, cs2) => some ((row.is_header, ss) :: tws, cs2)

/-- Rendering one content item (the `match content` of src/lib.rs 636-703):
a paragraph is rendered and followed by one newline; a table is flattened
and passed through the row fold. -/
def renderContent (doc : MarkdownDocument) (c : MarkdownContent) (cs : Counters) :
    Option (String × Counters) :=
  match c with
  | MarkdownContent.Paragraph p =>
    match p.to_markdown doc.styles cs doc with
    | none => none
    | some (s, cs') => some (s ++ "\n", cs')
  | MarkdownContent.Table rows =>
    match renderTableRows doc rows cs with
    | none => none
    | some (tws, cs') => some (tableFold tws, cs')

/-- The content loop of `MarkdownDocument::to_markdown`
(src/lib.rs 635-707), with the enumerate index passed explicitly: after
each item at index `i`, a separator newline is appended when
`i != n - 1`, i.e. for every item except the last (`n` is the content
length). -/
def renderItemsAux (doc : MarkdownDocument) (n : Nat) :
    Nat → List MarkdownContent → Counters → Option (String × Counters)
  | _, [], cs => some ("", cs)
  | i, c :: rest, cs =>
    match renderContent doc c cs with
    | none => none
    | some (s, cs') =>
      let s := if i ≠ n - 1 then s ++ "\n" else s
      match renderItemsAux doc n (i + 1) rest cs' with
      | none => none
      | some (s2, cs2) => some (s ++ s2, cs2)

/-- `MarkdownDocument::to_markdown` (src/lib.rs 626-719): the optional
title heading, then the content items with fresh per-list counters
(`let mut numberings: HashMap<isize, usize> = HashMap::new()`,
src/lib.rs 633, embedded as the empty association list).  The
`export_images` flag only triggers per-image file writes (src/lib.rs
709-716) and never alters the returned string, so it is unused here.
`none` models a panic inside paragraph rendering. -/
def MarkdownDocument.to_markdown (self : MarkdownDocument) (_export_images : Bool) :
    Option String :=
  let markdown := match self.title with
    | some title => "# " ++ title ++ "\n\n"
    | none => ""
  match renderItemsAux self self.content.length 0 self.content [] with
  | none => none
  | some (s, _) => some (markdown ++ s)

/-- Two successive calls of `to_markdown(false)` on the same document, as
performed by a caller that renders twice. -/
def renderTwice (d : MarkdownDocument) : Option String × Option String :=
  (d.to_markdown false, d.to_markdown false)

/-- The character-property fields read by the normalizer
(`docx_rust::formatting::CharacterProperty`): for the boolean toggles only
presence is observed (`is_some()`, src/lib.rs 352-367), so they are
embedded as `Option Unit`. -/
structure CharacterProperty where
  size : Option Int
  bold : Option Unit
  underline : Option Unit
  italics : Option Unit
  emphasis : Option Unit
  strike : Option Unit
  dstrike : Option Unit
deriving DecidableEq

/-- Building a run's `BlockStyle` from its character property
(src/lib.rs 346-371): a toggle is truthy when present at all, italics
also via `emphasis`, strike also via `dstrike`, and `size` is copied. -/
def blockStyleOfCharacterProperty (cp : CharacterProperty) : BlockStyle :=
  { bold := cp.bold.isSome
    underline := cp.underline.isSome
    italics := cp.italics.isSome || cp.emphasis.isSome
    strike := cp.strike.isSome || cp.dstrike.isSome
    size := cp.size }

/-- One entry of the document relationship table
(`docx_rust::document::Relationship`): id and target. -/
structure Relationship where
  id : String
  target : String

/-- Resolving a relationship id to its target (`relationships.get_target`
for drawings, src/lib.rs 403, and the equivalent manual `find_map` for
links, src/lib.rs 428-435): the first entry with a matching id. -/
def findTarget (rels : List Relationship) (id : String) : Option String :=
  rels.findSome? (fun r => if r.id = id then some r.target else none)

/-- The drawing data read by the normalizer (src/lib.rs 394-416):
`inline.graphic.data.children.first()` yields the blip embed id, and
`inline.doc_property.descr` the alt text. -/
structure DrawingInline where
  graphicChildrenBlipEmbed : Option (List String)
  descr : Option String

/-- `RunContent` restricted to the variants the normalizer consumes
(src/lib.rs 376-418): text, drawings, and an explicit arm for every
ignored kind. -/
inductive RunContentM where
  | Text (t : String)
  | Drawing (inline : Option DrawingInline)
  | OtherRunContent

/-- The hyperlink data read by the normalizer (src/lib.rs 422-446):
the first run content inside the link (the description), the optional
internal anchor and the optional relationship id. -/
structure LinkM where
  content : Option (List RunContentM)
  anchor : Option String
  id : Option String

/-- `ParagraphContent` restricted to the variants the normalizer consumes
(src/lib.rs 344-455): runs, links, bookmark starts, and an explicit arm
for every ignored kind. -/
inductive ParagraphContentM where
  | Run (property : Option CharacterProperty) (content : List RunContentM)
  | Link (l : LinkM)
  | BookmarkStart (name : Option String)
  | OtherParagraphContent

/-- The `RunContent::Text` handling of the normalizer (src/lib.rs
377-393): when the immediately preceding block is a `Text` block with the
identical style, append the run's text to it; otherwise push a fresh
`Text` block. -/
def pushText (block_style : Option BlockStyle) (blocks : List TextBlock) (t : String) :
    List TextBlock :=
  match blocks.getLast? with
  | some prev_block =>
    if prev_block.style = block_style ∧ prev_block.text_type = TextType.Text then
      blocks.dropLast ++ [{ prev_block with text := prev_block.text ++ t }]
    else blocks ++ [TextBlock.new t block_style TextType.Text]
  | none => blocks ++ [TextBlock.new t block_style TextType.Text]

/-- The `RunContent::Drawing` handling of the normalizer (src/lib.rs
394-417): resolve the first graphic child's blip embed id through the
relationship table; on success push an `Image` block
`![descr](./target)`, otherwise contribute nothing. -/
def pushDrawing (document_rels : Option (List Relationship)) (blocks : List TextBlock)
    (inline : Option DrawingInline) : List TextBlock :=
  match inline with
  | some inl =>
    match inl.graphicChildrenBlipEmbed.bind List.head? with
    | some embed =>
      match document_rels with
      | some relationships =>
        match findTarget relationships embed with
        | some target =>
          let descr := match inl.descr with
            | some descr => descr
            | none => ""
          blocks ++ [TextBlock.new ("![" ++ descr ++ "](./" ++ target ++ ")") none TextType.Image]
        | none => blocks
      | none => blocks
    | none => blocks
  | none => blocks

/-- The `ParagraphContent::Link` handling of the normalizer (src/lib.rs
422-447): the target is `#anchor` for internal links, or the resolved
relationship target; a `Link` block `[descr](target)` is pushed only when
the description is a text run and the target resolved. -/
def pushLink (document_rels : Option (List Relationship)) (blocks : List TextBlock)
    (l : LinkM) : List TextBlock :=
  let descr := l.content.bind List.head?
  let target := match l.anchor with
    | some anchor => some ("#" ++ anchor)
    | none =>
      match l.id with
      | some id =>
        match document_rels with
        | some rels => findTarget rels id
        | none => none
      | none => none
  match descr, target with
  | some (RunContentM.Text d), some t =>
    blocks ++ [TextBlock.new ("[" ++ d ++ "](" ++ t ++ ")") none TextType.Link]
  | _, _ => blocks

/-- `MarkdownParagraph::from_paragraph` (src/lib.rs 334-459).  The
paragraph property has already been converted to a `ParagraphStyle` by
the `From<&ParagraphProperty>` instance (src/lib.rs 126-174, an input
conversion no claim depends on), so it is taken here as an
`Option ParagraphStyle` directly; `document_rels` is the document's
relationship table (`docx.document_rels`). -/
def MarkdownParagraph.from_paragraph (property : Option ParagraphStyle)
    (content : List ParagraphContentM) (document_rels : Option (List Relationship)) :
    MarkdownParagraph :=
  let blocks := content.foldl (fun blocks pc =>
    match pc with
    | ParagraphContentM.Run run_property run_content =>
      let block_style := match run_property with
        | some cp => some (blockStyleOfCharacterProperty cp)
        | none => none
      run_content.foldl (fun blocks rc =>
        match rc with
        | RunContentM.Text t => pushText block_style blocks t
        | RunContentM.Drawing inline => pushDrawing document_rels blocks inline
        | RunContentM.OtherRunContent => blocks) blocks
    | ParagraphContentM.Link l => pushLink document_rels blocks l
    | ParagraphContentM.BookmarkStart name =>
      match name with
      | some name =>
        blocks ++ [TextBlock.new ("<a name=\"" ++ name ++ "\"></a>") none TextType.BookmarkLink]
      | none => blocks
    | ParagraphContentM.OtherParagraphContent => blocks) []
  { style := property, blocks := blocks }

/-! ### Helper lemmas -/

/-- Folding string concatenation from any accumulator factors the
accumulator out in front. -/
theorem foldl_append_factor (l : List String) :
    ∀ acc : String, l.foldl (fun a s => a ++ s) acc
      = acc ++ l.foldl (fun a s => a ++ s) "" := by
  induction l with
  | nil => intro acc; simp [String.append_empty]
  | cons x xs ih =>
    intro acc
    simp only [List.foldl_cons]
    rw [ih (acc ++ x), ih ("" ++ x), String.empty_append, String.append_assoc]

/-- `String.join` distributes over `cons`. -/
theorem join_cons (a : String) (l : List String) :
    String.join (a :: l) = a ++ String.join l := by
  simp only [String.join, List.foldl_cons]
  rw [foldl_append_factor l ("" ++ a), String.empty_append]

/-- A row-appending fold started from any accumulator is the accumulator
followed by the joined row strings. -/
theorem foldl_rows_join (column_lengths : List Nat) (rest : List (Bool × List String)) :
    ∀ acc : String,
      rest.foldl (fun a r => a ++ table_row_to_markdown column_lengths r.2) acc
        = acc ++ String.join (rest.map (fun r => table_row_to_markdown column_lengths r.2)) := by
  induction rest with
  | nil => intro acc; simp [String.join, String.append_empty]
  | cons r rs ih =>
    intro acc
    simp only [List.foldl_cons, List.map_cons]
    rw [ih, join_cons, String.append_assoc]

/-- For indices from `i ≥ 1` on, with every index kept below `n`, the
table row fold appends each remaining row string in order: neither the
index-0 header branch nor the dead `i = n` newline branch fires. -/
theorem tableFoldAux_tail (column_lengths : List Nat) (divider : String) (n : Nat)
    (rest : List (Bool × List String)) :
    ∀ (i : Nat) (acc : String), 1 ≤ i → i + rest.length ≤ n →
      tableFoldAux column_lengths divider n i acc rest
        = acc ++ String.join (rest.map (fun r => table_row_to_markdown column_lengths r.2)) := by
  induction rest with
  | nil =>
    intro i acc _ _
    simp [tableFoldAux, String.join, String.append_empty]
  | cons r rs ih =>
    intro i acc hi hn
    have hi0 : i ≠ 0 := by omega
    have hin : i ≠ n := by simp only [List.length_cons] at hn; omega
    simp only [tableFoldAux, if_neg hi0, if_neg hin]
    rw [ih (i + 1) _ (by omega) (by simp only [List.length_cons] at hn ⊢; omega)]
    simp only [List.map_cons]
    rw [join_cons, String.append_assoc]

/-! ### Claims -/

/-- Claim C2: when a run's `BlockStyle` is combined with the effective
paragraph-default `BlockStyle` at render time (`BlockStyle::combine_with`
as invoked by `TextBlock::to_markdown`), the resulting bold, italics,
underline and strike equal the paragraph's values regardless of the run's
own values, while the resulting size equals the paragraph's size only
when the paragraph specifies one and otherwise keeps the run's size. -/
theorem run_style_combine_paragraph_wins (run_style par_style : BlockStyle) :
    (run_style.combine_with par_style).bold = par_style.bold ∧
    (run_style.combine_with par_style).italics = par_style.italics ∧
    (run_style.combine_with par_style).underline = par_style.underline ∧
    (run_style.combine_with par_style).strike = par_style.strike ∧
    (∀ s : Int, par_style.size = some s → (run_style.combine_with par_style).size = some s) ∧
    (par_style.size = none → (run_style.combine_with par_style).size = run_style.size) := by
  refine ⟨rfl, rfl, rfl, rfl, ?_, ?_⟩
  · intro s hs
    simp [BlockStyle.combine_with, hs]
  · intro hs
    simp [BlockStyle.combine_with, hs]

/-- Witness for C2 at concrete styles: a paragraph size of 4 replaces the
run's 10; all four flags come from the paragraph. -/
theorem run_style_combine_paragraph_wins_witness :
    (⟨false, false, true, true, some 4⟩ : BlockStyle).size = some 4 ∧
    (BlockStyle.combine_with ⟨true, true, false, false, some 10⟩
        ⟨false, false, true, true, some 4⟩).size = some 4 ∧
    (BlockStyle.combine_with ⟨true, true, false, false, some 10⟩
        ⟨false, false, true, true, some 4⟩).bold = false :=
  ⟨rfl,
   (run_style_combine_paragraph_wins ⟨true, true, false, false, some 10⟩
      ⟨false, false, true, true, some 4⟩).2.2.2.2.1 4 rfl,
   (run_style_combine_paragraph_wins ⟨true, true, false, false, some 10⟩
      ⟨false, false, true, true, some 4⟩).1⟩

/-- Claim C9: `ParagraphStyle::combine_with` (invoked after the local
style's id resolves in the named-styles map) yields, for each of
`style_id`, `outline_lvl`, `page_break_before` and `numbering`, the local
value whenever present, and the named style's value otherwise. -/
theorem paragraph_merge_local_wins (loc named : ParagraphStyle) :
    (∀ v, loc.style_id = some v → (loc.combine_with named).style_id = some v) ∧
    (loc.style_id = none → (loc.combine_with named).style_id = named.style_id) ∧
    (∀ v, loc.outline_lvl = some v → (loc.combine_with named).outline_lvl = some v) ∧
    (loc.outline_lvl = none → (loc.combine_with named).outline_lvl = named.outline_lvl) ∧
    (∀ v, loc.page_break_before = some v →
       (loc.combine_with named).page_break_before = some v) ∧
    (loc.page_break_before = none →
       (loc.combine_with named).page_break_before = named.page_break_before) ∧
    (∀ v, loc.numbering = some v → (loc.combine_with named).numbering = some v) ∧
    (loc.numbering = none → (loc.combine_with named).numbering = named.numbering) := by
  refine ⟨fun v h => ?_, fun h => ?_, fun v h => ?_, fun h => ?_,
          fun v h => ?_, fun h => ?_, fun v h => ?_, fun h => ?_⟩ <;>
    simp [ParagraphStyle.combine_with, h]

/-- Witness for C9 at concrete styles: the local style id wins, the
absent local outline level is inherited from the named style. -/
theorem paragraph_merge_local_wins_witness :
    ((⟨some "Loc", none, none, none, none⟩ : ParagraphStyle).combine_with
        ⟨some "Named", some 2, none, some true, none⟩).style_id = some "Loc" ∧
    ((⟨some "Loc", none, none, none, none⟩ : ParagraphStyle).combine_with
        ⟨some "Named", some 2, none, some true, none⟩).outline_lvl = some 2 :=
  ⟨(paragraph_merge_local_wins ⟨some "Loc", none, none, none, none⟩
      ⟨some "Named", some 2, none, some true, none⟩).1 "Loc" rfl,
   (paragraph_merge_local_wins ⟨some "Loc", none, none, none, none⟩
      ⟨some "Named", some 2, none, some true, none⟩).2.2.2.1 rfl⟩

/-- Claim C10: when both the local `ParagraphStyle` and the named style
carry a run-default `BlockStyle`, `ParagraphStyle::combine_with` merges
the nested styles with `BlockStyle::combine_with`, so the named style's
bold, italics, underline and strike unconditionally overwrite the local
flags, and only `size` keeps the local value when the named style omits
it — the opposite direction of the local-wins rule for the scalar
paragraph fields. -/
theorem nested_block_style_named_wins (loc named : ParagraphStyle) (lbs nbs : BlockStyle)
    (hl : loc.style = some lbs) (hn : named.style = some nbs) :
    (loc.combine_with named).style = some
      { bold := nbs.bold, italics := nbs.italics, underline := nbs.underline,
        strike := nbs.strike,
        size := match nbs.size with
          | some s => some s
          | none => lbs.size } := by
  simp [ParagraphStyle.combine_with, hl, hn, BlockStyle.combine_with]

/-- Witness for C10 at concrete styles: the named style's flags replace
the local ones; the named style omits `size`, so the local 24 is kept. -/
theorem nested_block_style_named_wins_witness :
    ((⟨none, none, none, none, some ⟨true, false, false, true, some 24⟩⟩ :
        ParagraphStyle).combine_with
      ⟨none, none, none, none, some ⟨false, true, true, false, none⟩⟩).style
      = some ⟨false, true, true, false, some 24⟩ :=
  nested_block_style_named_wins
    ⟨none, none, none, none, some ⟨true, false, false, true, some 24⟩⟩
    ⟨none, none, none, none, some ⟨false, true, true, false, none⟩⟩
    ⟨true, false, false, true, some 24⟩ ⟨false, true, true, false, none⟩ rfl rfl

/-- Claim C6: two successive calls of `to_markdown(false)` on the same
document return identical strings.  The per-list counters are a map
created afresh inside each call (src/lib.rs 633) and `MarkdownDocument`
stores no counter field, which the embedding reflects: `to_markdown` is a
pure function of the document receiving no outside counter state, so the
two components of `renderTwice` are the same computation. -/
theorem render_twice_identical (d : MarkdownDocument) :
    (renderTwice d).1 = (renderTwice d).2 := rfl

/-- Claim C4: for every outline level `L`, the rendered heading prefix
has exactly `min L 5 + 1` `#` characters — levels 0 through 4 map
one-to-one to 1 through 5 `#`s, and every level of 5 or more clamps
to 6. -/
theorem heading_hash_count_min_formula (L : Nat) :
    (headingLevel (L : Int)).data.count '#' = min L 5 + 1 := by
  match L with
  | 0 => decide
  | 1 => decide
  | 2 => decide
  | 3 => decide
  | 4 => decide
  | (n + 5) =>
    have e : headingLevel ((n + 5 : Nat) : Int) = "###### " := by
      unfold headingLevel
      rw [if_neg (by omega), if_neg (by omega), if_neg (by omega),
          if_neg (by omega), if_neg (by omega)]
    rw [e]
    have hmin : min (n + 5) 5 = 5 := by omega
    rw [hmin]
    decide

/-- A numbering reference to list id 5 (no format of its own, as on any
per-paragraph reference). -/
def numberingRefFive : MarkdownNumbering :=
  { id := some 5, indent_level := none, format := none, level_text := none }

/-- A paragraph style carrying only that numbering reference. -/
def styleWithNumberingFive : ParagraphStyle :=
  { style_id := none, outline_lvl := none, numbering := some numberingRefFive,
    page_break_before := none, style := none }

/-- A paragraph referencing list id 5 with no matching entry in the
document's numbering-definition map. -/
def paragraphMissingListDef : MarkdownParagraph :=
  { style := some styleWithNumberingFive,
    blocks := [TextBlock.new "x" none TextType.Text] }

/-- A document containing only that paragraph and an empty
`numberings` map. -/
def docMissingListDef : MarkdownDocument :=
  { title := none, content := [MarkdownContent.Paragraph paragraphMissingListDef],
    styles := [], numberings := [], images := [] }

/-- Counterexample to claim C1: a paragraph whose numbering carries a
list id with no entry in `numberings` does NOT fall back to decimal
formatting — `doc.numberings[&id]` (src/lib.rs 306) panics on the absent
key (`none` in this embedding), so rendering does not complete. -/
theorem missing_numbering_def_is_error :
    paragraphMissingListDef.to_markdown [] [] docMissingListDef = none ∧
    docMissingListDef.to_markdown false = none := ⟨rfl, rfl⟩

/-- Claim C1 as amended by the counterexample: when the referenced list
id DOES resolve in `numberings`, rendering completes, an unrecognized
format string parses to decimal, and the decimal symbol is
`"{count+1}."`; only the absent-entry case is an error.  Stated in three
parts: (1) the decimal symbol arm, (2) the parse fallback, (3) rendering
succeeds whenever the effective numbering's list id (if any) resolves. -/
theorem resolvable_numbering_renders :
    (∀ (level_text : Option String) (count : Nat),
       numberingSymbol NumberFormat.Decimal level_text count = toString (count + 1) ++ ".") ∧
    (∀ s : String, s ≠ "upperRoman" → s ≠ "lowerRoman" → s ≠ "upperLetter" →
       s ≠ "lowerLetter" → s ≠ "bullet" → NumberFormat.fromStr s = NumberFormat.Decimal) ∧
    (∀ (doc : MarkdownDocument) (styles : List (String × ParagraphStyle)) (cs : Counters)
       (p : MarkdownParagraph) (nb : MarkdownNumbering) (id : Int) (ndef : MarkdownNumbering),
       (p.effective_style styles).numbering = some nb → nb.id = some id →
       List.lookup id doc.numberings = some ndef →
       (p.to_markdown styles cs doc).isSome = true) := by
  refine ⟨fun level_text count => rfl, ?_, ?_⟩
  · intro s h1 h2 h3 h4 h5
    simp [NumberFormat.fromStr, h1, h2, h3, h4, h5, ite_self]
  · intro doc styles cs p nb id ndef h1 h2 h3
    simp only [MarkdownParagraph.to_markdown, h1, h2, h3, Option.isSome_some]

/-- A numbering reference to list id 1, also used as the stored
definition for list id 1 (no format recorded). -/
def numberingRefOne : MarkdownNumbering :=
  { id := some 1, indent_level := none, format := none, level_text := none }

/-- A document whose `numberings` map has an entry for list id 1, with no
format recorded. -/
def docWithListDef : MarkdownDocument :=
  { title := none, content := [], styles := [],
    numberings := [(1, numberingRefOne)], images := [] }

/-- A paragraph style carrying only a reference to list id 1. -/
def styleWithNumberingOne : ParagraphStyle :=
  { style_id := none, outline_lvl := none, numbering := some numberingRefOne,
    page_break_before := none, style := none }

/-- A paragraph referencing list id 1. -/
def paragraphWithListRef : MarkdownParagraph :=
  { style := some styleWithNumberingOne,
    blocks := [TextBlock.new "x" none TextType.Text] }

/-- Witness for the amended C1: with the definition present (and its
format absent), rendering succeeds and emits the decimal marker `1.`. -/
theorem resolvable_numbering_renders_witness :
    (paragraphWithListRef.to_markdown [] [] docWithListDef).isSome = true ∧
    paragraphWithListRef.to_markdown [] [] docWithListDef = some ("1. x", [(1, 1)]) :=
  ⟨resolvable_numbering_renders.2.2 docWithListDef [] [] paragraphWithListRef
      numberingRefOne 1 numberingRefOne rfl rfl rfl,
   rfl⟩

/-- A paragraph style whose outline level is 4. -/
def styleOutlineFour : ParagraphStyle :=
  { style_id := none, outline_lvl := some 4, numbering := none,
    page_break_before := none, style := none }

/-- A paragraph whose effective outline level is 4. -/
def paragraphOutlineFour : MarkdownParagraph :=
  { style := some styleOutlineFour,
    blocks := [TextBlock.new "x" none TextType.Text] }

/-- An empty document (used as rendering context). -/
def emptyDoc : MarkdownDocument :=
  { title := none, content := [], styles := [], numberings := [], images := [] }

/-- Counterexample to claim C3: a paragraph with effective outline
level 4 renders with FIVE `#` characters, not the six the claim
asserts for every level of 4 or more. -/
theorem outline_level_four_renders_five_hashes :
    paragraphOutlineFour.to_markdown [] [] emptyDoc = some ("##### x", []) ∧
    ("##### x").data.count '#' = 5 := ⟨rfl, by decide⟩

/-- Claim C3 as amended by the counterexample: levels 0 through 3 map to
one through four `#`s, level 4 maps to five, and only levels of 5 or
more clamp to six `#`s. -/
theorem heading_levels_clamp_at_six :
    headingLevel 0 = "# " ∧ headingLevel 1 = "## " ∧ headingLevel 2 = "### " ∧
    headingLevel 3 = "#### " ∧ headingLevel 4 = "##### " ∧
    ∀ L : Nat, 5 ≤ L → headingLevel (L : Int) = "###### " := by
  refine ⟨rfl, rfl, rfl, rfl, rfl, ?_⟩
  intro L hL
  unfold headingLevel
  rw [if_neg (by omega), if_neg (by omega), if_neg (by omega),
      if_neg (by omega), if_neg (by omega)]

/-- Witness for the amended C3 at level 9: six `#`s. -/
theorem heading_levels_clamp_at_six_witness :
    5 ≤ (9 : Nat) ∧ headingLevel ((9 : Nat) : Int) = "###### " :=
  ⟨by decide, heading_levels_clamp_at_six.2.2.2.2.2 9 (by decide)⟩

/-- Claim C5: whenever a text run is normalized and the last block
already emitted is a `Text` block whose style equals the run's style
(including both absent), the normalizer appends the run's text to that
block instead of creating a new one; consequently two adjacent
identically-styled text runs yield exactly one merged `Text` block with
their concatenated text in order. -/
theorem adjacent_same_style_runs_coalesce :
    (∀ (bs : Option BlockStyle) (blocks : List TextBlock) (prev : TextBlock) (t : String),
       blocks.getLast? = some prev → prev.style = bs → prev.text_type = TextType.Text →
       pushText bs blocks t
         = blocks.dropLast ++ [{ prev with text := prev.text ++ t }]) ∧
    (∀ (property : Option ParagraphStyle) (rp : Option CharacterProperty)
       (rels : Option (List Relationship)) (t1 t2 : String),
       (MarkdownParagraph.from_paragraph property
           [ParagraphContentM.Run rp [RunContentM.Text t1],
            ParagraphContentM.Run rp [RunContentM.Text t2]] rels).blocks
         = [TextBlock.new (t1 ++ t2)
             (match rp with
              | some cp => some (blockStyleOfCharacterProperty cp)
              | none => none) TextType.Text]) := by
  constructor
  · intro bs blocks prev t hlast hstyle htype
    simp [pushText, hlast, hstyle, htype]
  · intro property rp rels t1 t2
    cases rp <;>
      simp [MarkdownParagraph.from_paragraph, pushText, TextBlock.new]

/-- Witness for C5: appending `"cd"` to a trailing `Text` block `"ab"`
of the same (absent) style merges them, both for the single step and for
a whole two-run paragraph. -/
theorem adjacent_same_style_runs_coalesce_witness :
    pushText none [TextBlock.new "ab" none TextType.Text] "cd"
      = [TextBlock.new "abcd" none TextType.Text] ∧
    (MarkdownParagraph.from_paragraph none
        [ParagraphContentM.Run none [RunContentM.Text "ab"],
         ParagraphContentM.Run none [RunContentM.Text "cd"]] none).blocks
      = [TextBlock.new "abcd" none TextType.Text] := by
  constructor
  · have h := adjacent_same_style_runs_coalesce.1 none
      [TextBlock.new "ab" none TextType.Text] (TextBlock.new "ab" none TextType.Text)
      "cd" rfl rfl rfl
    simpa using h
  · have h := adjacent_same_style_runs_coalesce.2 none none none "ab" "cd"
    simpa using h

/-- Claim C7: a table none of whose rows is marked as a header renders as
a synthesized blank header row (every cell empty, padded to its column's
computed width), then the dash divider row, then all data rows starting
from the table's first row; a table whose first row is marked as a header
renders that row first, followed by the divider and the remaining rows. -/
theorem table_without_header_synthesizes_blank_header :
    (∀ (hd : Bool × List String) (rest : List (Bool × List String)),
       (∀ r ∈ hd :: rest, r.1 = false) →
       tableFold (hd :: rest)
         = blankHeaderRow (max_lengths_per_column (hd :: rest) 3)
           ++ dividerRow (max_lengths_per_column (hd :: rest) 3)
           ++ String.join ((hd :: rest).map (fun r =>
                table_row_to_markdown (max_lengths_per_column (hd :: rest) 3) r.2))) ∧
    (∀ (hd : Bool × List String) (rest : List (Bool × List String)),
       hd.1 = true →
       tableFold (hd :: rest)
         = table_row_to_markdown (max_lengths_per_column (hd :: rest) 3) hd.2
           ++ dividerRow (max_lengths_per_column (hd :: rest) 3)
           ++ String.join (rest.map (fun r =>
                table_row_to_markdown (max_lengths_per_column (hd :: rest) 3) r.2))) := by
  constructor
  · intro hd rest hall
    have hhd : hd.1 = false := hall hd (List.mem_cons_self hd rest)
    show tableFoldAux _ _ _ 0 "" (hd :: rest) = _
    rw [tableFoldAux]
    simp only [hhd, if_pos rfl, Bool.false_eq_true, if_false, List.length_cons,
      Nat.zero_ne_add_one, if_neg (Nat.zero_ne_add_one rest.length)]
    rw [tableFoldAux_tail _ _ _ rest 1 _ (by omega) (by omega)]
    simp [join_cons, String.append_assoc]
  · intro hd rest hhd
    show tableFoldAux _ _ _ 0 "" (hd :: rest) = _
    rw [tableFoldAux]
    simp only [hhd, if_pos rfl, if_true, List.length_cons,
      if_neg (Nat.zero_ne_add_one rest.length)]
    rw [tableFoldAux_tail _ _ _ rest 1 _ (by omega) (by omega)]
    simp [String.append_assoc]

/-- Witness for C7: a two-row table with no header row renders a blank
padded header and divider before its data rows. -/
theorem table_without_header_synthesizes_blank_header_witness :
    tableFold [(false, ["A"]), (false, ["22"])]
      = blankHeaderRow (max_lengths_per_column [(false, ["A"]), (false, ["22"])] 3)
        ++ dividerRow (max_lengths_per_column [(false, ["A"]), (false, ["22"])] 3)
        ++ String.join ([(false, ["A"]), (false, ["22"])].map (fun r =>
             table_row_to_markdown (max_lengths_per_column [(false, ["A"]), (false, ["22"])] 3) r.2)) ∧
    tableFold [(false, ["A"]), (false, ["22"])]
      = "|     |\n| --- |\n| A   |\n| 22  |\n" := by
  constructor
  · exact table_without_header_synthesizes_blank_header.1 (false, ["A"]) [(false, ["22"])]
      (by intro r hr
          simp only [List.mem_cons, List.mem_singleton, List.not_mem_nil, or_false] at hr
          rcases hr with h | h <;> rw [h])
  · rfl

/-- The row fold of `tableFoldAux` with the trailing-newline branch
(`if i == table_with_simple_cells.len()`, src/lib.rs 695-697) removed.
This is the comparison definition used to show that branch is dead: the
enumerate index `i` runs from 0 to `len - 1` and never equals `len`. -/
def tableFoldCleanAux (column_lengths : List Nat) (divider : String) :
    Nat → String → List (Bool × List String) → String
  | _, acc, [] => acc
  | i, acc, row :: rest =>
    let markdown_row := table_row_to_markdown column_lengths row.2
    let acc := if i = 0 then
        (if row.1 then acc ++ markdown_row ++ divider
         else acc ++ blankHeaderRow column_lengths ++ divider ++ markdown_row)
      else acc ++ markdown_row
    tableFoldCleanAux column_lengths divider (i + 1) acc rest

/-- `tableFold` with the dead branch removed. -/
def tableFoldClean (table_with_simple_cells : List (Bool × List String)) : String :=
  let column_lengths := max_lengths_per_column table_with_simple_cells 3
  tableFoldCleanAux column_lengths (dividerRow column_lengths) 0 "" table_with_simple_cells

/-- As long as every index reached stays below `n`, the fold with the
`i = n` branch agrees with the fold without it. -/
theorem tableFoldAux_eq_clean (column_lengths : List Nat) (divider : String) (n : Nat)
    (rows : List (Bool × List String)) :
    ∀ (i : Nat) (acc : String), i + rows.length ≤ n →
      tableFoldAux column_lengths divider n i acc rows
        = tableFoldCleanAux column_lengths divider i acc rows := by
  induction rows with
  | nil => intro i acc _; rfl
  | cons r rs ih =>
    intro i acc h
    have hin : i ≠ n := by simp only [List.length_cons] at h; omega
    simp only [tableFoldAux, tableFoldCleanAux, if_neg hin]
    exact ih (i + 1) _ (by simp only [List.length_cons] at h; omega)

/-- Claim C8 as amended by the counterexample: the table renderer never
appends a trailing newline after the table's final row, whatever the
table's position in the document — the branch at src/lib.rs 695 compares
the 0-based fold index with the row count and can never fire, so
`tableFold` coincides with the fold from which that branch is removed.
(The newline that does follow a non-final table is the between-items
separator of src/lib.rs 704-706, appended exactly when the table is NOT
the last content item.) -/
theorem table_fold_never_appends_trailing_newline
    (table_with_simple_cells : List (Bool × List String)) :
    tableFold table_with_simple_cells = tableFoldClean table_with_simple_cells := by
  unfold tableFold tableFoldClean
  exact tableFoldAux_eq_clean _ _ _ table_with_simple_cells 0 "" (by omega)

/-- A one-block paragraph with text `A` and no style. -/
def paragraphCellA : MarkdownParagraph :=
  { style := none, blocks := [TextBlock.new "A" none TextType.Text] }

/-- A document whose only — hence last — content item is a one-row,
one-cell table with no header row. -/
def docLastTable : MarkdownDocument :=
  { title := none,
    content := [MarkdownContent.Table [{ is_header := false, cells := [[paragraphCellA]] }]],
    styles := [], numberings := [], images := [] }

/-- Counterexample to claim C8: the table is the last content item of the
document, yet no trailing newline is appended after its final row — the
output ends with the final row's own `"| A   |\n"` and not with the
additional newline the claim asserts. -/
theorem last_table_no_trailing_newline :
    docLastTable.to_markdown false = some "|     |\n| --- |\n| A   |\n" ∧
    docLastTable.to_markdown false ≠ some "|     |\n| --- |\n| A   |\n\n" := by
  constructor
  · rfl
  · decide
